import Mathlib

/-!
Shallow embedding of the geometric kernel of the `ray-tracer` repository:
tuple algebra, fixed-size square matrices with cofactor inversion
(`src/matrices.rs`), affine transformation factories
(`src/transformations.rs`), rays (`src/rays.rs`), spheres and ray-sphere
intersection (`src/spheres.rs`), hit selection (`src/intersections.rs`) and
Phong lighting (`src/materials.rs`).

IEEE-754 doubles are embedded as rationals (`ℚ`).  The two partial
operations of `f64` that `ℚ` cannot mirror exactly — `sqrt` and `powf` —
are passed as explicit function parameters wherever the source calls them;
theorems that depend on their values take the defining property
(`0 ≤ sqrt d` and `sqrt d * sqrt d = d`) as a hypothesis.  A Rust panic
(`Option::unwrap` on `None`) is embedded as propagation of `Option.none`.
-/

/-- Modelled from the spec: `crate::constants::EPSILON` (the file
`constants.rs` is declared in `main.rs` but is not present under `src/`);
the spec fixes the shared comparison tolerance at `1e-5`, matching the
local `EPSILON = 0.00001` constants in `matrices.rs` and `tuples.rs`. -/
def EPSILON : ℚ := 1 / 100000

/-- Modelled from the spec: the homogeneous 4-component tuple
`Tuple(f64, f64, f64, f64)` used by `matrices.rs`, `spheres.rs` and
`materials.rs` (`w = 1` point, `w = 0` vector/color).  The module under
`src/tuples.rs` is a superseded kind-tagged snapshot of the same algebra;
the 4-float variant's own source file is not under `src/`. -/
structure Tuple where
  x : ℚ
  y : ℚ
  z : ℚ
  w : ℚ
deriving DecidableEq

namespace Tuple

/-- Componentwise addition (spec §4.1 `add`; snapshot `ops::Add`). -/
def add (a b : Tuple) : Tuple := ⟨a.x + b.x, a.y + b.y, a.z + b.z, a.w + b.w⟩

/-- Componentwise subtraction (spec §4.1 `subtract`; snapshot `ops::Sub`). -/
def sub (a b : Tuple) : Tuple := ⟨a.x - b.x, a.y - b.y, a.z - b.z, a.w - b.w⟩

/-- Negation (spec §4.1 `negate`; snapshot `ops::Neg`). -/
def neg (a : Tuple) : Tuple := ⟨-a.x, -a.y, -a.z, -a.w⟩

/-- Scalar multiplication (spec §4.1 `scalar multiply`; snapshot
`ops::Mul<f64>`). -/
def smul (a : Tuple) (s : ℚ) : Tuple := ⟨a.x * s, a.y * s, a.z * s, a.w * s⟩

/-- Scalar division (spec §4.1 `scalar divide`; snapshot `ops::Div<f64>`). -/
def sdiv (a : Tuple) (s : ℚ) : Tuple := ⟨a.x / s, a.y / s, a.z / s, a.w / s⟩

/-- 3-component dot product (spec §4.1 `dot_product`; snapshot
`x1 * x2 + y1 * y2 + z1 * z2`). -/
def dot_product (a b : Tuple) : ℚ := a.x * b.x + a.y * b.y + a.z * b.z

/-- Componentwise (Hadamard) product of colors (spec §4.1
`hadamard_product`; snapshot multiplies the three channels). -/
def hadamard_product (a b : Tuple) : Tuple :=
  ⟨a.x * b.x, a.y * b.y, a.z * b.z, a.w * b.w⟩

/-- `normalize` divides every component by the magnitude
`sqrt (x² + y² + z² + w²)` (spec §4.1; the square root of `f64` is passed
in as `sqrt`). -/
def normalize (sqrt : ℚ → ℚ) (a : Tuple) : Tuple :=
  sdiv a (sqrt (a.x * a.x + a.y * a.y + a.z * a.z + a.w * a.w))

/-- Modelled from the spec: `reflect(normal) = self − normal × 2 ×
dot(self, normal)` (spec §4.1; the 4-float tuple module carrying `reflect`
is not under `src/`). -/
def reflect (v normal : Tuple) : Tuple :=
  sub v (smul normal (2 * dot_product v normal))

/-- Epsilon equality of tuples: every component differs by less than
`EPSILON` (spec §3; snapshot `PartialEq for Tuple`). -/
def approxEq (a b : Tuple) : Prop :=
  |a.x - b.x| < EPSILON ∧ |a.y - b.y| < EPSILON ∧
    |a.z - b.z| < EPSILON ∧ |a.w - b.w| < EPSILON

instance : DecidablePred fun p : Tuple × Tuple => approxEq p.1 p.2 :=
  fun _ => by unfold approxEq; infer_instance

instance (a b : Tuple) : Decidable (approxEq a b) := by
  unfold approxEq; infer_instance

end Tuple

/-- `Matrix<N>` of `matrices.rs`: an `N × N` array of doubles, embedded as
a function of its row and column indices. -/
def Mat (n : ℕ) : Type := Fin n → Fin n → ℚ

instance (n : ℕ) : DecidableEq (Mat n) := by unfold Mat; infer_instance

namespace Mat

/-- `Matrix::transpose` (`matrices.rs` lines 13-23): `output[j][i] =
self[i][j]`. -/
def transpose {n : ℕ} (A : Mat n) : Mat n := fun i j => A j i

/-- `ops::Mul<Self> for Matrix<N>` (`matrices.rs` lines 34-48):
`output[row][col] = (0..N).fold(0.0, |acc, n| acc + self[row][n] *
other[n][col])`. -/
def mul {n : ℕ} (A B : Mat n) : Mat n := fun row col =>
  (List.finRange n).foldl (fun acc k => acc + A row k * B k col) 0

/-- `ops::Mul<Tuple> for Matrix<4>` (`matrices.rs` lines 50-62): row `i`
of the result is `a*x + b*y + c*z + d*w` for row `[a, b, c, d]`. -/
def mulTuple (A : Mat 4) (t : Tuple) : Tuple :=
  ⟨A 0 0 * t.x + A 0 1 * t.y + A 0 2 * t.z + A 0 3 * t.w,
   A 1 0 * t.x + A 1 1 * t.y + A 1 2 * t.z + A 1 3 * t.w,
   A 2 0 * t.x + A 2 1 * t.y + A 2 2 * t.z + A 2 3 * t.w,
   A 3 0 * t.x + A 3 1 * t.y + A 3 2 * t.z + A 3 3 * t.w⟩

/-- Epsilon equality of matrices (`PartialEq for Matrix<N>`, `matrices.rs`
lines 64-78): the comparison returns `false` exactly when some entry pair
differs by more than `EPSILON`, i.e. it holds iff every pair differs by at
most `EPSILON`. -/
def approxEq {n : ℕ} (A B : Mat n) : Prop :=
  ∀ i j, ¬(|A i j - B i j| > EPSILON)

instance {n : ℕ} (A B : Mat n) : Decidable (approxEq A B) := by
  unfold approxEq; infer_instance

/-- `Matrix::<4>::identity()` (used by `spheres.rs`; its array layout is
shown explicitly in the `test_identity` test of `matrices.rs`): ones on
the diagonal, zeroes elsewhere. -/
def identity {n : ℕ} : Mat n := fun i j => if i = j then 1 else 0

/-- `Matrix<2>::determinant` (`matrices.rs` lines 80-86): `a*d - b*c`. -/
def determinant2 (A : Mat 2) : ℚ := A 0 0 * A 1 1 - A 0 1 * A 1 0

/-- `submatrix` from the `define_methods!` macro (`matrices.rs` lines
91-115): dropping `exclude_row` and `exclude_column` and writing the kept
entries in row-major order at positions `(count / (N-1), count % (N-1))`
places input entry `(er.succAbove i, ec.succAbove j)` at output position
`(i, j)`. -/
def submatrix {n : ℕ} (A : Mat (n + 1)) (er ec : Fin (n + 1)) : Mat n :=
  fun i j => A (er.succAbove i) (ec.succAbove j)

/-- `Matrix<3>::minor` (`matrices.rs` lines 117-119 via
`define_methods!(3)`). -/
def minor3 (A : Mat 3) (er ec : Fin 3) : ℚ := determinant2 (submatrix A er ec)

/-- `Matrix<3>::cofactor` (`matrices.rs` lines 121-128): negate the minor
when `(row + column) % 2 == 1`. -/
def cofactor3 (A : Mat 3) (er ec : Fin 3) : ℚ :=
  match (er.val + ec.val) % 2 with
  | 1 => -minor3 A er ec
  | _ => minor3 A er ec

/-- `Matrix<3>::determinant` (`matrices.rs` lines 130-132): fold of
`cofactor(0, col) * self[0][col]` over the columns. -/
def determinant3 (A : Mat 3) : ℚ :=
  (List.finRange 3).foldl (fun acc col => acc + cofactor3 A 0 col * A 0 col) 0

/-- `Matrix<4>::minor` (`matrices.rs` lines 117-119 via
`define_methods!(4)`). -/
def minor4 (A : Mat 4) (er ec : Fin 4) : ℚ := determinant3 (submatrix A er ec)

/-- `Matrix<4>::cofactor` (`matrices.rs` lines 121-128). -/
def cofactor4 (A : Mat 4) (er ec : Fin 4) : ℚ :=
  match (er.val + ec.val) % 2 with
  | 1 => -minor4 A er ec
  | _ => minor4 A er ec

/-- `Matrix<4>::determinant` (`matrices.rs` lines 130-132). -/
def determinant4 (A : Mat 4) : ℚ :=
  (List.finRange 4).foldl (fun acc col => acc + cofactor4 A 0 col * A 0 col) 0

/-- `Matrix<3>::inverse` (`matrices.rs` lines 134-152): `None` when the
determinant is zero, otherwise `output[col][row] = cofactor(row, col) /
determinant`. -/
def inverse3 (A : Mat 3) : Option (Mat 3) :=
  if determinant3 A = 0 then none
  else some fun col row => cofactor3 A row col / determinant3 A

/-- `Matrix<4>::inverse` (`matrices.rs` lines 134-152). -/
def inverse4 (A : Mat 4) : Option (Mat 4) :=
  if determinant4 A = 0 then none
  else some fun col row => cofactor4 A row col / determinant4 A

end Mat

/-- `Axis` (`transformations.rs` lines 33-37). -/
inductive Axis where
  | X : Axis
  | Y : Axis
  | Z : Axis
deriving DecidableEq

namespace Transformations

/-- `translation` (`transformations.rs` lines 3-10): the `Matrix::new`
row array transcribed row by row. -/
def translation (x y z : ℚ) : Mat 4 :=
  ![![1, 0, 0, x],
    ![0, 1, 0, y],
    ![0, 0, 1, z],
    ![0, 0, 0, 1]]

/-- `scaling` (`transformations.rs` lines 18-25). -/
def scaling (x y z : ℚ) : Mat 4 :=
  ![![x, 0, 0, 0],
    ![0, y, 0, 0],
    ![0, 0, z, 0],
    ![0, 0, 0, 1]]

/-- `rotation` (`transformations.rs` lines 39-60), transcribed row by row
exactly as in the source — including the `1.0` entries in column 0 of rows
1 and 2 of the `Axis::X` layout.  The source computes `radians.cos()` and
`radians.sin()` from a single angle argument; those two `f64` values enter
the embedding as the parameters `c` and `s`. -/
def rotation (axis : Axis) (c s : ℚ) : Mat 4 :=
  match axis with
  | Axis.X =>
      ![![1, 0, 0, 0],
        ![1, c, -s, 0],
        ![1, s, c, 0],
        ![0, 0, 0, 1]]
  | Axis.Y =>
      ![![c, 0, s, 0],
        ![0, 1, 0, 0],
        ![-s, 0, c, 0],
        ![0, 0, 0, 1]]
  | Axis.Z =>
      ![![c, -s, 0, 0],
        ![s, c, 0, 0],
        ![0, 0, 1, 0],
        ![0, 0, 0, 1]]

/-- The standard right-handed rotation matrices, written from the spec's
words (§4.3: "standard right-handed rotation matrix about X, Y, or Z using
`cos`/`sin` of the angle") for comparison with `rotation` above.  The X
layout has `0` in column 0 of rows 1 and 2; the Y and Z layouts coincide
with the source's. -/
def rotationSpec (axis : Axis) (c s : ℚ) : Mat 4 :=
  match axis with
  | Axis.X =>
      ![![1, 0, 0, 0],
        ![0, c, -s, 0],
        ![0, s, c, 0],
        ![0, 0, 0, 1]]
  | Axis.Y => rotation Axis.Y c s
  | Axis.Z => rotation Axis.Z c s

/-- `shearing` (`transformations.rs` lines 80-94). -/
def shearing (xy xz yx yz zy zx : ℚ) : Mat 4 :=
  ![![1, xy, xz, 0],
    ![yx, 1, yz, 0],
    ![zx, zy, 1, 0],
    ![0, 0, 0, 1]]

end Transformations

/-- `Ray` (`rays.rs` lines 3-7). -/
structure Ray where
  origin : Tuple
  direction : Tuple
deriving DecidableEq

/-- `Ray::transform` (`rays.rs` lines 32-37): multiply both origin and
direction by the matrix. -/
def Ray.transformBy (r : Ray) (m : Mat 4) : Ray :=
  ⟨Mat.mulTuple m r.origin, Mat.mulTuple m r.direction⟩

/-- `Material` (`materials.rs` lines 6-13). -/
structure Material where
  color : Tuple
  ambient : ℚ
  diffuse : ℚ
  specular : ℚ
  shininess : ℚ
deriving DecidableEq

/-- `Material::new` (`materials.rs` lines 16-24): white color, ambient
`0.1`, diffuse `0.9`, specular `0.9`, shininess `200`. -/
def Material.new : Material :=
  ⟨⟨1, 1, 1, 0⟩, 1 / 10, 9 / 10, 9 / 10, 200⟩

/-- `PointLight` (`lights.rs` lines 3-6). -/
structure PointLight where
  intensity : Tuple
  position : Tuple
deriving DecidableEq

/-- `Sphere` (`spheres.rs` lines 6-12). -/
structure Sphere where
  origin : Tuple
  radius : ℚ
  transform : Mat 4
  material : Material
deriving DecidableEq

/-- `Sphere::new` (`spheres.rs` lines 21-28): unit sphere at the origin
with the identity transform and the default material. -/
def Sphere.new : Sphere :=
  ⟨⟨0, 0, 0, 1⟩, 1, Mat.identity, Material.new⟩

/-- `PartialEq for Sphere` (`spheres.rs` lines 14-18): origins compared
with the tuple epsilon equality, radii within `EPSILON`; `transform` and
`material` are not consulted. -/
def Sphere.approxEq (a b : Sphere) : Prop :=
  Tuple.approxEq a.origin b.origin ∧ |a.radius - b.radius| < EPSILON

instance (a b : Sphere) : Decidable (Sphere.approxEq a b) := by
  unfold Sphere.approxEq; infer_instance

/-- `Intersection` (`intersections.rs` lines 3-7). -/
structure Intersection where
  t : ℚ
  object : Sphere
deriving DecidableEq

/-- `Intersections` (`intersections.rs` line 22): a wrapper around a
vector of intersections; embedded as the list itself. -/
def Intersections : Type := List Intersection

instance : DecidableEq Intersections := by unfold Intersections; infer_instance

/-- The fold body of `Intersections::hit` (`intersections.rs` lines
38-48): a negative-`t` entry leaves the accumulator unchanged, an empty
accumulator takes the entry, and a filled accumulator is replaced only
when the entry's `t` is strictly smaller. -/
def Intersections.hitStep (acc : Option Intersection)
    (intersection : Intersection) : Option Intersection :=
  if intersection.t < 0 then acc
  else
    match acc with
    | none => some intersection
    | some other =>
        if intersection.t < other.t then some intersection else acc

/-- `Intersections::hit` (`intersections.rs` lines 37-49): fold of
`hitStep` over the stored intersections with a `None` accumulator. -/
def Intersections.hit (l : Intersections) : Option Intersection :=
  l.foldl Intersections.hitStep none

/-- `sphere_to_ray = ray.origin - self.origin` (`spheres.rs` line 33).
This and the next six definitions name the `let` bindings of the
quadratic-solving body of `Sphere::intersect` (`spheres.rs` lines 33-55),
which acts on the ray already transformed into object space; the body
returns the empty list when the discriminant is negative, one root when
`|t1 - t2| < EPSILON`, and otherwise the pair ordered by the sign of
`t1 - t2`. -/
def sphere_to_ray (s : Sphere) (ray : Ray) : Tuple :=
  Tuple.sub ray.origin s.origin

/-- `a = dot(direction, direction)` (`spheres.rs` line 35). -/
def quadA (ray : Ray) : ℚ :=
  Tuple.dot_product ray.direction ray.direction

/-- `b = 2 * dot(direction, sphere_to_ray)` (`spheres.rs` line 36). -/
def quadB (s : Sphere) (ray : Ray) : ℚ :=
  2 * Tuple.dot_product ray.direction (sphere_to_ray s ray)

/-- `c = dot(sphere_to_ray, sphere_to_ray) - 1` (`spheres.rs` line 37). -/
def quadC (s : Sphere) (ray : Ray) : ℚ :=
  Tuple.dot_product (sphere_to_ray s ray) (sphere_to_ray s ray) - 1

/-- `discriminant = b.powf(2.0) - 4 * a * c` (`spheres.rs` line 39; the
exponent is the literal `2.0`, so `powf` is exact squaring). -/
def quadDisc (s : Sphere) (ray : Ray) : ℚ :=
  quadB s ray ^ 2 - 4 * quadA ray * quadC s ray

/-- `t1 = (-b - discriminant.sqrt()) / (2.0 * a)` (`spheres.rs` line 45). -/
def root1 (sqrt : ℚ → ℚ) (s : Sphere) (ray : Ray) : ℚ :=
  (-quadB s ray - sqrt (quadDisc s ray)) / (2 * quadA ray)

/-- `t2 = (-b + discriminant.sqrt()) / (2.0 * a)` (`spheres.rs` line 46). -/
def root2 (sqrt : ℚ → ℚ) (s : Sphere) (ray : Ray) : ℚ :=
  (-quadB s ray + sqrt (quadDisc s ray)) / (2 * quadA ray)

def Sphere.intersectBody (sqrt : ℚ → ℚ) (s : Sphere) (ray : Ray) :
    Intersections :=
  if quadDisc s ray < 0 then []
  else if |root1 sqrt s ray - root2 sqrt s ray| < EPSILON then
    [⟨root1 sqrt s ray, s⟩]
  else if root1 sqrt s ray - root2 sqrt s ray < 0 then
    [⟨root1 sqrt s ray, s⟩, ⟨root2 sqrt s ray, s⟩]
  else [⟨root2 sqrt s ray, s⟩, ⟨root1 sqrt s ray, s⟩]

/-- `Sphere::intersect` (`spheres.rs` lines 30-56).  Line 31 computes
`self.transform.inverse().unwrap()`: the `unwrap` panic on a singular
transform is embedded as propagation of `none`; on `some inv` the ray is
transformed by the inverse and handed to the quadratic body. -/
def Sphere.intersect (sqrt : ℚ → ℚ) (s : Sphere) (r : Ray) :
    Option Intersections :=
  (Mat.inverse4 s.transform).map fun inv =>
    Sphere.intersectBody sqrt s (r.transformBy inv)

/-- `Material::lighting` (`materials.rs` lines 26-59).  `f64::sqrt`
(inside `normalize`) and `f64::powf` (for the specular exponent) are
passed in as `sqrt` and `powf`. -/
def Material.lighting (sqrt : ℚ → ℚ) (powf : ℚ → ℚ → ℚ) (m : Material)
    (light : PointLight) (position eyev normalv : Tuple) : Tuple :=
  let effective_color := Tuple.hadamard_product m.color light.intensity
  let lightv := Tuple.normalize sqrt (Tuple.sub light.position position)
  let ambient := Tuple.smul effective_color m.ambient
  let light_dot_normal := Tuple.dot_product lightv normalv
  let ds :=
    if light_dot_normal < 0 then (Tuple.mk 0 0 0 0, Tuple.mk 0 0 0 0)
    else
      let diffuse := Tuple.smul (Tuple.smul effective_color m.diffuse)
        light_dot_normal
      let reflect_dot_eye :=
        -(Tuple.dot_product (Tuple.reflect lightv normalv) eyev)
      if reflect_dot_eye ≤ 0 then (diffuse, Tuple.mk 0 0 0 0)
      else
        (diffuse,
          Tuple.smul (Tuple.smul light.intensity m.specular)
            (powf reflect_dot_eye m.shininess))
  Tuple.add (Tuple.add ambient ds.1) ds.2

/-!
Entry-level expansion lemmas.  Each is a definitional (`rfl`) consequence
of the embedding above: matrix-product entries, identity entries, and the
cofactor-expansion determinants written out as explicit polynomials in the
matrix entries.  They exist so that the algebraic theorems below can be
settled by `ring` on literal-index entries.
-/

theorem mul3_apply (A B : Mat 3) (i j : Fin 3) :
    Mat.mul A B i j = 0 + A i 0 * B 0 j + A i 1 * B 1 j + A i 2 * B 2 j := rfl

theorem mul4_apply (A B : Mat 4) (i j : Fin 4) :
    Mat.mul A B i j =
      0 + A i 0 * B 0 j + A i 1 * B 1 j + A i 2 * B 2 j + A i 3 * B 3 j := rfl

theorem mat3_ext_iff (A B : Mat 3) :
    A = B ↔
      (A 0 0 = B 0 0 ∧ A 0 1 = B 0 1 ∧ A 0 2 = B 0 2 ∧
       A 1 0 = B 1 0 ∧ A 1 1 = B 1 1 ∧ A 1 2 = B 1 2 ∧
       A 2 0 = B 2 0 ∧ A 2 1 = B 2 1 ∧ A 2 2 = B 2 2) := by
  constructor
  · intro h; subst h; exact ⟨rfl, rfl, rfl, rfl, rfl, rfl, rfl, rfl, rfl⟩
  · intro h
    funext i j
    fin_cases i <;> fin_cases j
    exacts [h.1, h.2.1, h.2.2.1, h.2.2.2.1, h.2.2.2.2.1, h.2.2.2.2.2.1,
      h.2.2.2.2.2.2.1, h.2.2.2.2.2.2.2.1, h.2.2.2.2.2.2.2.2]

theorem mat4_ext_iff (A B : Mat 4) :
    A = B ↔
      (A 0 0 = B 0 0 ∧ A 0 1 = B 0 1 ∧ A 0 2 = B 0 2 ∧ A 0 3 = B 0 3 ∧
       A 1 0 = B 1 0 ∧ A 1 1 = B 1 1 ∧ A 1 2 = B 1 2 ∧ A 1 3 = B 1 3 ∧
       A 2 0 = B 2 0 ∧ A 2 1 = B 2 1 ∧ A 2 2 = B 2 2 ∧ A 2 3 = B 2 3 ∧
       A 3 0 = B 3 0 ∧ A 3 1 = B 3 1 ∧ A 3 2 = B 3 2 ∧ A 3 3 = B 3 3) := by
  constructor
  · intro h; subst h
    exact ⟨rfl, rfl, rfl, rfl, rfl, rfl, rfl, rfl, rfl, rfl, rfl, rfl, rfl,
      rfl, rfl, rfl⟩
  · intro h
    obtain ⟨h1, h2, h3, h4, h5, h6, h7, h8, h9, h10, h11, h12, h13, h14, h15,
      h16⟩ := h
    funext i j
    fin_cases i <;> fin_cases j
    exacts [h1, h2, h3, h4, h5, h6, h7, h8, h9, h10, h11, h12, h13, h14, h15,
      h16]
theorem cof3e00 (A : Mat 3) : Mat.cofactor3 A 0 0 = (A 1 1 * A 2 2 - A 1 2 * A 2 1) := rfl
theorem cof3e01 (A : Mat 3) : Mat.cofactor3 A 0 1 = -(A 1 0 * A 2 2 - A 1 2 * A 2 0) := rfl
theorem cof3e02 (A : Mat 3) : Mat.cofactor3 A 0 2 = (A 1 0 * A 2 1 - A 1 1 * A 2 0) := rfl
theorem cof3e10 (A : Mat 3) : Mat.cofactor3 A 1 0 = -(A 0 1 * A 2 2 - A 0 2 * A 2 1) := rfl
theorem cof3e11 (A : Mat 3) : Mat.cofactor3 A 1 1 = (A 0 0 * A 2 2 - A 0 2 * A 2 0) := rfl
theorem cof3e12 (A : Mat 3) : Mat.cofactor3 A 1 2 = -(A 0 0 * A 2 1 - A 0 1 * A 2 0) := rfl
theorem cof3e20 (A : Mat 3) : Mat.cofactor3 A 2 0 = (A 0 1 * A 1 2 - A 0 2 * A 1 1) := rfl
theorem cof3e21 (A : Mat 3) : Mat.cofactor3 A 2 1 = -(A 0 0 * A 1 2 - A 0 2 * A 1 0) := rfl
theorem cof3e22 (A : Mat 3) : Mat.cofactor3 A 2 2 = (A 0 0 * A 1 1 - A 0 1 * A 1 0) := rfl
theorem det3e (A : Mat 3) : Mat.determinant3 A = 0 + (A 1 1 * A 2 2 - A 1 2 * A 2 1) * A 0 0 + -(A 1 0 * A 2 2 - A 1 2 * A 2 0) * A 0 1 + (A 1 0 * A 2 1 - A 1 1 * A 2 0) * A 0 2 := rfl
theorem cof4e00 (A : Mat 4) : Mat.cofactor4 A 0 0 = (0 + (A 2 2 * A 3 3 - A 2 3 * A 3 2) * A 1 1 + -(A 2 1 * A 3 3 - A 2 3 * A 3 1) * A 1 2 + (A 2 1 * A 3 2 - A 2 2 * A 3 1) * A 1 3) := rfl
theorem cof4e01 (A : Mat 4) : Mat.cofactor4 A 0 1 = -(0 + (A 2 2 * A 3 3 - A 2 3 * A 3 2) * A 1 0 + -(A 2 0 * A 3 3 - A 2 3 * A 3 0) * A 1 2 + (A 2 0 * A 3 2 - A 2 2 * A 3 0) * A 1 3) := rfl
theorem cof4e02 (A : Mat 4) : Mat.cofactor4 A 0 2 = (0 + (A 2 1 * A 3 3 - A 2 3 * A 3 1) * A 1 0 + -(A 2 0 * A 3 3 - A 2 3 * A 3 0) * A 1 1 + (A 2 0 * A 3 1 - A 2 1 * A 3 0) * A 1 3) := rfl
theorem cof4e03 (A : Mat 4) : Mat.cofactor4 A 0 3 = -(0 + (A 2 1 * A 3 2 - A 2 2 * A 3 1) * A 1 0 + -(A 2 0 * A 3 2 - A 2 2 * A 3 0) * A 1 1 + (A 2 0 * A 3 1 - A 2 1 * A 3 0) * A 1 2) := rfl
theorem cof4e10 (A : Mat 4) : Mat.cofactor4 A 1 0 = -(0 + (A 2 2 * A 3 3 - A 2 3 * A 3 2) * A 0 1 + -(A 2 1 * A 3 3 - A 2 3 * A 3 1) * A 0 2 + (A 2 1 * A 3 2 - A 2 2 * A 3 1) * A 0 3) := rfl
theorem cof4e11 (A : Mat 4) : Mat.cofactor4 A 1 1 = (0 + (A 2 2 * A 3 3 - A 2 3 * A 3 2) * A 0 0 + -(A 2 0 * A 3 3 - A 2 3 * A 3 0) * A 0 2 + (A 2 0 * A 3 2 - A 2 2 * A 3 0) * A 0 3) := rfl
theorem cof4e12 (A : Mat 4) : Mat.cofactor4 A 1 2 = -(0 + (A 2 1 * A 3 3 - A 2 3 * A 3 1) * A 0 0 + -(A 2 0 * A 3 3 - A 2 3 * A 3 0) * A 0 1 + (A 2 0 * A 3 1 - A 2 1 * A 3 0) * A 0 3) := rfl
theorem cof4e13 (A : Mat 4) : Mat.cofactor4 A 1 3 = (0 + (A 2 1 * A 3 2 - A 2 2 * A 3 1) * A 0 0 + -(A 2 0 * A 3 2 - A 2 2 * A 3 0) * A 0 1 + (A 2 0 * A 3 1 - A 2 1 * A 3 0) * A 0 2) := rfl
theorem cof4e20 (A : Mat 4) : Mat.cofactor4 A 2 0 = (0 + (A 1 2 * A 3 3 - A 1 3 * A 3 2) * A 0 1 + -(A 1 1 * A 3 3 - A 1 3 * A 3 1) * A 0 2 + (A 1 1 * A 3 2 - A 1 2 * A 3 1) * A 0 3) := rfl
theorem cof4e21 (A : Mat 4) : Mat.cofactor4 A 2 1 = -(0 + (A 1 2 * A 3 3 - A 1 3 * A 3 2) * A 0 0 + -(A 1 0 * A 3 3 - A 1 3 * A 3 0) * A 0 2 + (A 1 0 * A 3 2 - A 1 2 * A 3 0) * A 0 3) := rfl
theorem cof4e22 (A : Mat 4) : Mat.cofactor4 A 2 2 = (0 + (A 1 1 * A 3 3 - A 1 3 * A 3 1) * A 0 0 + -(A 1 0 * A 3 3 - A 1 3 * A 3 0) * A 0 1 + (A 1 0 * A 3 1 - A 1 1 * A 3 0) * A 0 3) := rfl
theorem cof4e23 (A : Mat 4) : Mat.cofactor4 A 2 3 = -(0 + (A 1 1 * A 3 2 - A 1 2 * A 3 1) * A 0 0 + -(A 1 0 * A 3 2 - A 1 2 * A 3 0) * A 0 1 + (A 1 0 * A 3 1 - A 1 1 * A 3 0) * A 0 2) := rfl
theorem cof4e30 (A : Mat 4) : Mat.cofactor4 A 3 0 = -(0 + (A 1 2 * A 2 3 - A 1 3 * A 2 2) * A 0 1 + -(A 1 1 * A 2 3 - A 1 3 * A 2 1) * A 0 2 + (A 1 1 * A 2 2 - A 1 2 * A 2 1) * A 0 3) := rfl
theorem cof4e31 (A : Mat 4) : Mat.cofactor4 A 3 1 = (0 + (A 1 2 * A 2 3 - A 1 3 * A 2 2) * A 0 0 + -(A 1 0 * A 2 3 - A 1 3 * A 2 0) * A 0 2 + (A 1 0 * A 2 2 - A 1 2 * A 2 0) * A 0 3) := rfl
theorem cof4e32 (A : Mat 4) : Mat.cofactor4 A 3 2 = -(0 + (A 1 1 * A 2 3 - A 1 3 * A 2 1) * A 0 0 + -(A 1 0 * A 2 3 - A 1 3 * A 2 0) * A 0 1 + (A 1 0 * A 2 1 - A 1 1 * A 2 0) * A 0 3) := rfl
theorem cof4e33 (A : Mat 4) : Mat.cofactor4 A 3 3 = (0 + (A 1 1 * A 2 2 - A 1 2 * A 2 1) * A 0 0 + -(A 1 0 * A 2 2 - A 1 2 * A 2 0) * A 0 1 + (A 1 0 * A 2 1 - A 1 1 * A 2 0) * A 0 2) := rfl
theorem det4e (A : Mat 4) : Mat.determinant4 A = 0 + (0 + (A 2 2 * A 3 3 - A 2 3 * A 3 2) * A 1 1 + -(A 2 1 * A 3 3 - A 2 3 * A 3 1) * A 1 2 + (A 2 1 * A 3 2 - A 2 2 * A 3 1) * A 1 3) * A 0 0 + -(0 + (A 2 2 * A 3 3 - A 2 3 * A 3 2) * A 1 0 + -(A 2 0 * A 3 3 - A 2 3 * A 3 0) * A 1 2 + (A 2 0 * A 3 2 - A 2 2 * A 3 0) * A 1 3) * A 0 1 + (0 + (A 2 1 * A 3 3 - A 2 3 * A 3 1) * A 1 0 + -(A 2 0 * A 3 3 - A 2 3 * A 3 0) * A 1 1 + (A 2 0 * A 3 1 - A 2 1 * A 3 0) * A 1 3) * A 0 2 + -(0 + (A 2 1 * A 3 2 - A 2 2 * A 3 1) * A 1 0 + -(A 2 0 * A 3 2 - A 2 2 * A 3 0) * A 1 1 + (A 2 0 * A 3 1 - A 2 1 * A 3 0) * A 1 2) * A 0 3 := rfl

theorem id3e00 : (Mat.identity : Mat 3) 0 0 = 1 := rfl
theorem id3e01 : (Mat.identity : Mat 3) 0 1 = 0 := rfl
theorem id3e02 : (Mat.identity : Mat 3) 0 2 = 0 := rfl
theorem id3e10 : (Mat.identity : Mat 3) 1 0 = 0 := rfl
theorem id3e11 : (Mat.identity : Mat 3) 1 1 = 1 := rfl
theorem id3e12 : (Mat.identity : Mat 3) 1 2 = 0 := rfl
theorem id3e20 : (Mat.identity : Mat 3) 2 0 = 0 := rfl
theorem id3e21 : (Mat.identity : Mat 3) 2 1 = 0 := rfl
theorem id3e22 : (Mat.identity : Mat 3) 2 2 = 1 := rfl

theorem id4e00 : (Mat.identity : Mat 4) 0 0 = 1 := rfl
theorem id4e01 : (Mat.identity : Mat 4) 0 1 = 0 := rfl
theorem id4e02 : (Mat.identity : Mat 4) 0 2 = 0 := rfl
theorem id4e03 : (Mat.identity : Mat 4) 0 3 = 0 := rfl
theorem id4e10 : (Mat.identity : Mat 4) 1 0 = 0 := rfl
theorem id4e11 : (Mat.identity : Mat 4) 1 1 = 1 := rfl
theorem id4e12 : (Mat.identity : Mat 4) 1 2 = 0 := rfl
theorem id4e13 : (Mat.identity : Mat 4) 1 3 = 0 := rfl
theorem id4e20 : (Mat.identity : Mat 4) 2 0 = 0 := rfl
theorem id4e21 : (Mat.identity : Mat 4) 2 1 = 0 := rfl
theorem id4e22 : (Mat.identity : Mat 4) 2 2 = 1 := rfl
theorem id4e23 : (Mat.identity : Mat 4) 2 3 = 0 := rfl
theorem id4e30 : (Mat.identity : Mat 4) 3 0 = 0 := rfl
theorem id4e31 : (Mat.identity : Mat 4) 3 1 = 0 := rfl
theorem id4e32 : (Mat.identity : Mat 4) 3 2 = 0 := rfl
theorem id4e33 : (Mat.identity : Mat 4) 3 3 = 1 := rfl


set_option maxHeartbeats 1000000

/-- Laplace/adjugate identity for the source's 3×3 data: a matrix times
its cofactor-transpose-over-determinant is the identity. -/
theorem mul_inv3 (A : Mat 3) (h : Mat.determinant3 A ≠ 0) :
    Mat.mul A (fun col row => Mat.cofactor3 A row col / Mat.determinant3 A) =
      Mat.identity := by
  rw [mat3_ext_iff]
  refine ⟨?_, ?_, ?_, ?_, ?_, ?_, ?_, ?_, ?_⟩ <;>
    (simp only [mul3_apply, id3e00, id3e01, id3e02, id3e10, id3e11, id3e12,
       id3e20, id3e21, id3e22, zero_add]
     simp only [← mul_div_assoc]
     simp only [div_add_div_same]
     rw [div_eq_iff h]
     simp only [cof3e00, cof3e01, cof3e02, cof3e10, cof3e11, cof3e12, cof3e20,
       cof3e21, cof3e22, det3e]
     ring)

/-- The two-sided companion of `mul_inv3`. -/
theorem inv_mul3 (A : Mat 3) (h : Mat.determinant3 A ≠ 0) :
    Mat.mul (fun col row => Mat.cofactor3 A row col / Mat.determinant3 A) A =
      Mat.identity := by
  rw [mat3_ext_iff]
  refine ⟨?_, ?_, ?_, ?_, ?_, ?_, ?_, ?_, ?_⟩ <;>
    (simp only [mul3_apply, id3e00, id3e01, id3e02, id3e10, id3e11, id3e12,
       id3e20, id3e21, id3e22, zero_add]
     simp only [div_mul_eq_mul_div]
     simp only [div_add_div_same]
     rw [div_eq_iff h]
     simp only [cof3e00, cof3e01, cof3e02, cof3e10, cof3e11, cof3e12, cof3e20,
       cof3e21, cof3e22, det3e]
     ring)

/-- Laplace/adjugate identity for the source's 4×4 data. -/
theorem mul_inv4 (A : Mat 4) (h : Mat.determinant4 A ≠ 0) :
    Mat.mul A (fun col row => Mat.cofactor4 A row col / Mat.determinant4 A) =
      Mat.identity := by
  rw [mat4_ext_iff]
  refine ⟨?_, ?_, ?_, ?_, ?_, ?_, ?_, ?_, ?_, ?_, ?_, ?_, ?_, ?_, ?_, ?_⟩ <;>
    (simp only [mul4_apply, id4e00, id4e01, id4e02, id4e03, id4e10, id4e11,
       id4e12, id4e13, id4e20, id4e21, id4e22, id4e23, id4e30, id4e31, id4e32,
       id4e33, zero_add]
     simp only [← mul_div_assoc]
     simp only [div_add_div_same]
     rw [div_eq_iff h]
     simp only [cof4e00, cof4e01, cof4e02, cof4e03, cof4e10, cof4e11, cof4e12,
       cof4e13, cof4e20, cof4e21, cof4e22, cof4e23, cof4e30, cof4e31, cof4e32,
       cof4e33, det4e]
     ring)

/-- The two-sided companion of `mul_inv4`. -/
theorem inv_mul4 (A : Mat 4) (h : Mat.determinant4 A ≠ 0) :
    Mat.mul (fun col row => Mat.cofactor4 A row col / Mat.determinant4 A) A =
      Mat.identity := by
  rw [mat4_ext_iff]
  refine ⟨?_, ?_, ?_, ?_, ?_, ?_, ?_, ?_, ?_, ?_, ?_, ?_, ?_, ?_, ?_, ?_⟩ <;>
    (simp only [mul4_apply, id4e00, id4e01, id4e02, id4e03, id4e10, id4e11,
       id4e12, id4e13, id4e20, id4e21, id4e22, id4e23, id4e30, id4e31, id4e32,
       id4e33, zero_add]
     simp only [div_mul_eq_mul_div]
     simp only [div_add_div_same]
     rw [div_eq_iff h]
     simp only [cof4e00, cof4e01, cof4e02, cof4e03, cof4e10, cof4e11, cof4e12,
       cof4e13, cof4e20, cof4e21, cof4e22, cof4e23, cof4e30, cof4e31, cof4e32,
       cof4e33, det4e]
     ring)

/-- Determinant of a 3×3 product (polynomial identity in the entries). -/
theorem det_mul3 (A B : Mat 3) :
    Mat.determinant3 (Mat.mul A B) =
      Mat.determinant3 A * Mat.determinant3 B := by
  simp only [det3e, mul3_apply]
  ring

/-- Determinant of a 4×4 product (polynomial identity in the entries). -/
theorem det_mul4 (A B : Mat 4) :
    Mat.determinant4 (Mat.mul A B) =
      Mat.determinant4 A * Mat.determinant4 B := by
  simp only [det4e, mul4_apply]
  ring

theorem mul_id3 (A : Mat 3) : Mat.mul A Mat.identity = A := by
  rw [mat3_ext_iff]
  refine ⟨?_, ?_, ?_, ?_, ?_, ?_, ?_, ?_, ?_⟩ <;>
    (simp only [mul3_apply, id3e00, id3e01, id3e02, id3e10, id3e11, id3e12,
       id3e20, id3e21, id3e22]
     ring)

theorem id_mul3 (A : Mat 3) : Mat.mul Mat.identity A = A := by
  rw [mat3_ext_iff]
  refine ⟨?_, ?_, ?_, ?_, ?_, ?_, ?_, ?_, ?_⟩ <;>
    (simp only [mul3_apply, id3e00, id3e01, id3e02, id3e10, id3e11, id3e12,
       id3e20, id3e21, id3e22]
     ring)

theorem mul_assoc3 (A B C : Mat 3) :
    Mat.mul (Mat.mul A B) C = Mat.mul A (Mat.mul B C) := by
  rw [mat3_ext_iff]
  refine ⟨?_, ?_, ?_, ?_, ?_, ?_, ?_, ?_, ?_⟩ <;> (simp only [mul3_apply]; ring)

theorem mul_id4 (A : Mat 4) : Mat.mul A Mat.identity = A := by
  rw [mat4_ext_iff]
  refine ⟨?_, ?_, ?_, ?_, ?_, ?_, ?_, ?_, ?_, ?_, ?_, ?_, ?_, ?_, ?_, ?_⟩ <;>
    (simp only [mul4_apply, id4e00, id4e01, id4e02, id4e03, id4e10, id4e11,
       id4e12, id4e13, id4e20, id4e21, id4e22, id4e23, id4e30, id4e31, id4e32,
       id4e33]
     ring)

theorem id_mul4 (A : Mat 4) : Mat.mul Mat.identity A = A := by
  rw [mat4_ext_iff]
  refine ⟨?_, ?_, ?_, ?_, ?_, ?_, ?_, ?_, ?_, ?_, ?_, ?_, ?_, ?_, ?_, ?_⟩ <;>
    (simp only [mul4_apply, id4e00, id4e01, id4e02, id4e03, id4e10, id4e11,
       id4e12, id4e13, id4e20, id4e21, id4e22, id4e23, id4e30, id4e31, id4e32,
       id4e33]
     ring)

theorem mul_assoc4 (A B C : Mat 4) :
    Mat.mul (Mat.mul A B) C = Mat.mul A (Mat.mul B C) := by
  rw [mat4_ext_iff]
  refine ⟨?_, ?_, ?_, ?_, ?_, ?_, ?_, ?_, ?_, ?_, ?_, ?_, ?_, ?_, ?_, ?_⟩ <;>
    (simp only [mul4_apply]; ring)

theorem matApproxEq_refl3 (A : Mat 3) : Mat.approxEq A A := by
  intro i j; simp [EPSILON]

theorem matApproxEq_refl4 (A : Mat 4) : Mat.approxEq A A := by
  intro i j; simp [EPSILON]

theorem det_id3 : Mat.determinant3 (Mat.identity) = 1 := by
  norm_num [det3e, id3e00, id3e01, id3e02, id3e10, id3e11, id3e12, id3e20,
    id3e21, id3e22]

theorem det_id4 : Mat.determinant4 (Mat.identity) = 1 := by
  norm_num [det4e, id4e00, id4e01, id4e02, id4e03, id4e10, id4e11, id4e12,
    id4e13, id4e20, id4e21, id4e22, id4e23, id4e30, id4e31, id4e32, id4e33]

/-- `inverse` on a non-singular matrix returns exactly the
cofactor-transpose-over-determinant matrix (3×3). -/
theorem inverse3_eq (A : Mat 3) (h : Mat.determinant3 A ≠ 0) :
    Mat.inverse3 A =
      some fun col row => Mat.cofactor3 A row col / Mat.determinant3 A := by
  unfold Mat.inverse3
  rw [if_neg h]

/-- `inverse` on a non-singular matrix returns exactly the
cofactor-transpose-over-determinant matrix (4×4). -/
theorem inverse4_eq (A : Mat 4) (h : Mat.determinant4 A ≠ 0) :
    Mat.inverse4 A =
      some fun col row => Mat.cofactor4 A row col / Mat.determinant4 A := by
  unfold Mat.inverse4
  rw [if_neg h]

/-- The 3×3 inverse is exact: `A * A⁻¹ = I` and `(A⁻¹)⁻¹ = A`. -/
theorem inv_inv3 (A : Mat 3) (h : Mat.determinant3 A ≠ 0) :
    ∃ N, Mat.inverse3 A = some N ∧ Mat.mul A N = Mat.identity ∧
      Mat.inverse3 N = some A := by
  refine ⟨_, inverse3_eq A h, mul_inv3 A h, ?_⟩
  have hNA : Mat.mul
      (fun col row => Mat.cofactor3 A row col / Mat.determinant3 A) A =
      Mat.identity := inv_mul3 A h
  have hdetN : Mat.determinant3
      (fun col row => Mat.cofactor3 A row col / Mat.determinant3 A) ≠ 0 := by
    intro h0
    have hd := det_mul3
      (fun col row => Mat.cofactor3 A row col / Mat.determinant3 A) A
    rw [hNA, det_id3, h0, zero_mul] at hd
    exact one_ne_zero hd
  have hA : A = fun col row =>
      Mat.cofactor3 (fun c r => Mat.cofactor3 A r c / Mat.determinant3 A)
        row col /
        Mat.determinant3
          (fun c r => Mat.cofactor3 A r c / Mat.determinant3 A) := by
    calc A = Mat.mul A Mat.identity := (mul_id3 A).symm
    _ = Mat.mul A (Mat.mul
        (fun c r => Mat.cofactor3 A r c / Mat.determinant3 A)
        (fun col row =>
          Mat.cofactor3 (fun c r => Mat.cofactor3 A r c / Mat.determinant3 A)
            row col /
          Mat.determinant3
            (fun c r => Mat.cofactor3 A r c / Mat.determinant3 A))) := by
        rw [mul_inv3 _ hdetN]
    _ = Mat.mul (Mat.mul A
        (fun c r => Mat.cofactor3 A r c / Mat.determinant3 A)) _ :=
        (mul_assoc3 _ _ _).symm
    _ = Mat.mul Mat.identity _ := by rw [mul_inv3 A h]
    _ = _ := id_mul3 _
  rw [inverse3_eq _ hdetN]
  exact congrArg some hA.symm

/-- The 4×4 inverse is exact: `A * A⁻¹ = I` and `(A⁻¹)⁻¹ = A`. -/
theorem inv_inv4 (A : Mat 4) (h : Mat.determinant4 A ≠ 0) :
    ∃ N, Mat.inverse4 A = some N ∧ Mat.mul A N = Mat.identity ∧
      Mat.inverse4 N = some A := by
  refine ⟨_, inverse4_eq A h, mul_inv4 A h, ?_⟩
  have hNA : Mat.mul
      (fun col row => Mat.cofactor4 A row col / Mat.determinant4 A) A =
      Mat.identity := inv_mul4 A h
  have hdetN : Mat.determinant4
      (fun col row => Mat.cofactor4 A row col / Mat.determinant4 A) ≠ 0 := by
    intro h0
    have hd := det_mul4
      (fun col row => Mat.cofactor4 A row col / Mat.determinant4 A) A
    rw [hNA, det_id4, h0, zero_mul] at hd
    exact one_ne_zero hd
  have hA : A = fun col row =>
      Mat.cofactor4 (fun c r => Mat.cofactor4 A r c / Mat.determinant4 A)
        row col /
        Mat.determinant4
          (fun c r => Mat.cofactor4 A r c / Mat.determinant4 A) := by
    calc A = Mat.mul A Mat.identity := (mul_id4 A).symm
    _ = Mat.mul A (Mat.mul
        (fun c r => Mat.cofactor4 A r c / Mat.determinant4 A)
        (fun col row =>
          Mat.cofactor4 (fun c r => Mat.cofactor4 A r c / Mat.determinant4 A)
            row col /
          Mat.determinant4
            (fun c r => Mat.cofactor4 A r c / Mat.determinant4 A))) := by
        rw [mul_inv4 _ hdetN]
    _ = Mat.mul (Mat.mul A
        (fun c r => Mat.cofactor4 A r c / Mat.determinant4 A)) _ :=
        (mul_assoc4 _ _ _).symm
    _ = Mat.mul Mat.identity _ := by rw [mul_inv4 A h]
    _ = _ := id_mul4 _
  rw [inverse4_eq _ hdetN]
  exact congrArg some hA.symm

/-- C5: for every square matrix of the sizes the program inverts (3 and
4), `inverse()` returns `None` exactly when the determinant is `0`, and
otherwise returns the matrix whose entry at position `[col][row]` is
`cofactor(row, col)` divided by the determinant. -/
theorem inverse_none_iff_det_zero :
    (∀ A : Mat 3, (Mat.inverse3 A = none ↔ Mat.determinant3 A = 0) ∧
      (Mat.determinant3 A ≠ 0 →
        Mat.inverse3 A =
          some fun col row =>
            Mat.cofactor3 A row col / Mat.determinant3 A)) ∧
    (∀ A : Mat 4, (Mat.inverse4 A = none ↔ Mat.determinant4 A = 0) ∧
      (Mat.determinant4 A ≠ 0 →
        Mat.inverse4 A =
          some fun col row =>
            Mat.cofactor4 A row col / Mat.determinant4 A)) := by
  constructor
  · intro A
    refine ⟨?_, inverse3_eq A⟩
    unfold Mat.inverse3
    split <;> simp_all
  · intro A
    refine ⟨?_, inverse4_eq A⟩
    unfold Mat.inverse4
    split <;> simp_all

/-- Witness for C5: the 3×3 identity is inverted to its adjugate-transpose
over its determinant, and a 4×4 zero-scaling matrix (determinant `0`) is
rejected with `None`. -/
theorem inverse_none_iff_det_zero_witness :
    Mat.inverse3 Mat.identity =
      (some fun col row =>
        Mat.cofactor3 Mat.identity row col /
          Mat.determinant3 Mat.identity) ∧
    Mat.inverse4 (Transformations.scaling 0 0 0) = none := by
  constructor
  · exact (inverse_none_iff_det_zero.1 Mat.identity).2
      (by rw [det_id3]; exact one_ne_zero)
  · exact (inverse_none_iff_det_zero.2 (Transformations.scaling 0 0 0)).1.mpr
      (by norm_num [det4e, cof4e00, cof4e01, cof4e02, cof4e03,
        Transformations.scaling, Matrix.cons_val_zero, Matrix.cons_val_one,
        Matrix.cons_val_two, Matrix.cons_val_three, Matrix.head_cons,
        Matrix.vecHead, Matrix.vecTail])

/-- C6: for every square matrix `M` (size 3 or 4) with non-zero
determinant, `M * inverse(M)` equals the identity within the `EPSILON`
matrix equality, and `inverse(inverse(M))` equals `M` within it (both hold
exactly in the rational embedding). -/
theorem inverse_round_trip :
    (∀ M : Mat 3, Mat.determinant3 M ≠ 0 →
      ∃ N K, Mat.inverse3 M = some N ∧
        Mat.approxEq (Mat.mul M N) Mat.identity ∧
        Mat.inverse3 N = some K ∧ Mat.approxEq K M) ∧
    (∀ M : Mat 4, Mat.determinant4 M ≠ 0 →
      ∃ N K, Mat.inverse4 M = some N ∧
        Mat.approxEq (Mat.mul M N) Mat.identity ∧
        Mat.inverse4 N = some K ∧ Mat.approxEq K M) := by
  constructor
  · intro M h
    obtain ⟨N, h1, h2, h3⟩ := inv_inv3 M h
    exact ⟨N, M, h1, by rw [h2]; exact matApproxEq_refl3 _, h3,
      matApproxEq_refl3 M⟩
  · intro M h
    obtain ⟨N, h1, h2, h3⟩ := inv_inv4 M h
    exact ⟨N, M, h1, by rw [h2]; exact matApproxEq_refl4 _, h3,
      matApproxEq_refl4 M⟩

/-- Witness for C6: the inverse round trip evaluated at the concrete
non-singular matrix `scaling(2, 3, 4)`. -/
theorem inverse_round_trip_witness :
    ∃ N K, Mat.inverse4 (Transformations.scaling 2 3 4) = some N ∧
      Mat.approxEq (Mat.mul (Transformations.scaling 2 3 4) N)
        Mat.identity ∧
      Mat.inverse4 N = some K ∧
      Mat.approxEq K (Transformations.scaling 2 3 4) :=
  inverse_round_trip.2 (Transformations.scaling 2 3 4)
    (by norm_num [det4e, cof4e00, cof4e01, cof4e02, cof4e03,
      Transformations.scaling, Matrix.cons_val_zero, Matrix.cons_val_one,
      Matrix.cons_val_two, Matrix.cons_val_three, Matrix.head_cons,
      Matrix.vecHead, Matrix.vecTail])

/-- C1 (code-bug evidence): at angle `0` (`cos = 1`, `sin = 0`) the
source's `Axis::X` rotation moves the point `(1, 1, 1)` to `(1, 2, 2)`:
the stray `1.0` entries in column 0 of rows 1 and 2 of the X layout leak
the `x` component into `y` and `z`.  The standard X-rotation by angle `0`
(the spec's layout) fixes the point, and the two matrices differ at entry
`[1][0]`. -/
theorem rotation_x_layout_bug :
    Mat.mulTuple (Transformations.rotation Axis.X 1 0) ⟨1, 1, 1, 1⟩ =
      ⟨1, 2, 2, 1⟩ ∧
    Mat.mulTuple (Transformations.rotationSpec Axis.X 1 0) ⟨1, 1, 1, 1⟩ =
      ⟨1, 1, 1, 1⟩ ∧
    Transformations.rotation Axis.X 1 0 1 0 = 1 ∧
    Transformations.rotationSpec Axis.X 1 0 1 0 = 0 := by
  refine ⟨?_, ?_, ?_, ?_⟩ <;>
    norm_num [Transformations.rotation, Transformations.rotationSpec,
      Mat.mulTuple, Matrix.cons_val_zero, Matrix.cons_val_one,
      Matrix.cons_val_two, Matrix.cons_val_three, Matrix.head_cons,
      Matrix.vecHead, Matrix.vecTail]

/-- C9: sphere equality holds iff the origins are (epsilon-)equal and the
radii differ by less than `EPSILON`; the transform and material fields are
not consulted, so two spheres differing in both transform and material but
sharing origin and radius compare equal. -/
theorem sphere_eq_ignores_transform_material :
    (∀ a b : Sphere, Sphere.approxEq a b ↔
      (Tuple.approxEq a.origin b.origin ∧
        |a.radius - b.radius| < EPSILON)) ∧
    (Sphere.approxEq Sphere.new
      (Sphere.mk ⟨0, 0, 0, 1⟩ 1 (Transformations.scaling 2 3 4)
        (Material.mk ⟨1, 0, 0, 0⟩ 1 1 1 1)) ∧
     Sphere.new.transform ≠ Transformations.scaling 2 3 4 ∧
     Sphere.new.material ≠ Material.mk ⟨1, 0, 0, 0⟩ 1 1 1 1) := by
  refine ⟨fun a b => Iff.rfl, ?_, ?_, ?_⟩
  · constructor
    · refine ⟨?_, ?_, ?_, ?_⟩ <;> norm_num [Sphere.new, EPSILON]
    · norm_num [Sphere.new, EPSILON]
  · intro h
    have h00 := congrFun (congrFun h 0) 0
    rw [show Sphere.new.transform = Mat.identity from rfl, id4e00] at h00
    norm_num [Transformations.scaling, Matrix.cons_val_zero,
      Matrix.head_cons, Matrix.vecHead] at h00
  · intro h
    rw [show Sphere.new.material = Material.new from rfl] at h
    have hc := congrArg Material.ambient h
    norm_num [Material.new] at hc

/-- C7: for every vector `v` and unit normal `n` (`dot(n, n) = 1`),
`dot(reflect(v, n), n) = -dot(v, n)` — exactly, hence within epsilon. -/
theorem reflect_dot_neg (v n : Tuple) (h : Tuple.dot_product n n = 1) :
    Tuple.dot_product (Tuple.reflect v n) n = -(Tuple.dot_product v n) := by
  unfold Tuple.dot_product at h
  unfold Tuple.reflect Tuple.sub Tuple.smul Tuple.dot_product
  linear_combination (-2 * (v.x * n.x + v.y * n.y + v.z * n.z)) * h

/-- Witness for C7 at `v = (1, 2, 3)`, `n = (0, 1, 0)`. -/
theorem reflect_dot_neg_witness :
    Tuple.dot_product ⟨0, 1, 0, 0⟩ ⟨0, 1, 0, 0⟩ = 1 ∧
    Tuple.dot_product (Tuple.reflect ⟨1, 2, 3, 0⟩ ⟨0, 1, 0, 0⟩)
        ⟨0, 1, 0, 0⟩ =
      -(Tuple.dot_product ⟨1, 2, 3, 0⟩ ⟨0, 1, 0, 0⟩) :=
  ⟨by norm_num [Tuple.dot_product],
   reflect_dot_neg ⟨1, 2, 3, 0⟩ ⟨0, 1, 0, 0⟩
     (by norm_num [Tuple.dot_product])⟩

/-- C2: `Sphere::intersect` with a singular transform (determinant zero)
fails — the `unwrap` of the absent inverse surfaces the failure instead of
any silent answer, embedded as `none` — and with a non-singular transform
it always produces an intersection list. -/
theorem intersect_singular_fails (sqrt : ℚ → ℚ) (s : Sphere) (r : Ray) :
    (Mat.determinant4 s.transform = 0 → Sphere.intersect sqrt s r = none) ∧
    (Mat.determinant4 s.transform ≠ 0 →
      ∃ res, Sphere.intersect sqrt s r = some res) := by
  constructor
  · intro h
    unfold Sphere.intersect
    rw [show Mat.inverse4 s.transform = none from by
      unfold Mat.inverse4; rw [if_pos h]]
    rfl
  · intro h
    unfold Sphere.intersect
    rw [inverse4_eq s.transform h]
    exact ⟨_, rfl⟩

/-- Witness for C2: a sphere carrying the singular transform
`scaling(0, 0, 0)` makes `intersect` fail for a concrete ray. -/
theorem intersect_singular_fails_witness :
    Mat.determinant4
        (Sphere.mk ⟨0, 0, 0, 1⟩ 1 (Transformations.scaling 0 0 0)
          Material.new).transform = 0 ∧
    Sphere.intersect (fun _ => 0)
        (Sphere.mk ⟨0, 0, 0, 1⟩ 1 (Transformations.scaling 0 0 0)
          Material.new)
        ⟨⟨0, 0, -5, 1⟩, ⟨0, 0, 1, 0⟩⟩ = none := by
  have hdet : Mat.determinant4
      (Sphere.mk ⟨0, 0, 0, 1⟩ 1 (Transformations.scaling 0 0 0)
        Material.new).transform = 0 := by
    norm_num [det4e, cof4e00, cof4e01, cof4e02, cof4e03,
      Transformations.scaling, Matrix.cons_val_zero, Matrix.cons_val_one,
      Matrix.cons_val_two, Matrix.cons_val_three, Matrix.head_cons,
      Matrix.vecHead, Matrix.vecTail]
  exact ⟨hdet,
    (intersect_singular_fails (fun _ => 0) _ _).1 hdet⟩

/-- A negative-`t` entry never changes the accumulator. -/
theorem hitStep_neg (acc : Option Intersection) (x : Intersection)
    (h : x.t < 0) : Intersections.hitStep acc x = acc := by
  unfold Intersections.hitStep
  rw [if_pos h]

/-- A non-negative entry fills an empty accumulator. -/
theorem hitStep_none (x : Intersection) (h : 0 ≤ x.t) :
    Intersections.hitStep none x = some x := by
  unfold Intersections.hitStep
  rw [if_neg (not_lt.mpr h)]

/-- A non-negative entry with strictly smaller `t` replaces the
accumulator. -/
theorem hitStep_replace (b x : Intersection) (h : 0 ≤ x.t)
    (hlt : x.t < b.t) : Intersections.hitStep (some b) x = some x := by
  unfold Intersections.hitStep
  rw [if_neg (not_lt.mpr h)]
  simp only [hlt, if_pos]

/-- A non-negative entry with `t` at least the accumulator's keeps the
accumulator. -/
theorem hitStep_keep (b x : Intersection) (hge : b.t ≤ x.t) :
    Intersections.hitStep (some b) x = some b := by
  unfold Intersections.hitStep
  by_cases hx : x.t < 0
  · rw [if_pos hx]
  · rw [if_neg hx]
    simp only [not_lt.mpr hge, if_neg, ite_eq_right_iff]
    intro hlt
    exact hlt.elim

/-- Folding over entries that are all negative returns the accumulator
unchanged. -/
theorem hit_fold_all_neg (l : List Intersection) (acc : Option Intersection)
    (h : ∀ x ∈ l, x.t < 0) :
    l.foldl Intersections.hitStep acc = acc := by
  induction l generalizing acc with
  | nil => rfl
  | cons a t ih =>
    rw [List.foldl_cons, hitStep_neg acc a (h a (List.mem_cons_self a t))]
    exact ih acc fun x hx => h x (List.mem_cons_of_mem a hx)

/-- Folding with a non-negative accumulator entry produces the minimum of
the accumulator and the non-negative entries of the list, preferring the
accumulator on ties. -/
theorem hit_fold_min (l : List Intersection) (b : Intersection)
    (hb : 0 ≤ b.t) :
    ∃ x, l.foldl Intersections.hitStep (some b) = some x ∧ 0 ≤ x.t ∧
      x.t ≤ b.t ∧ (x = b ∨ x ∈ l) ∧ ∀ y ∈ l, 0 ≤ y.t → x.t ≤ y.t := by
  induction l generalizing b with
  | nil => exact ⟨b, rfl, hb, le_refl _, Or.inl rfl, by simp⟩
  | cons a t ih =>
    rw [List.foldl_cons]
    by_cases ha : a.t < 0
    · rw [hitStep_neg (some b) a ha]
      obtain ⟨x, h1, h2, h3, h4, h5⟩ := ih b hb
      refine ⟨x, h1, h2, h3, ?_, ?_⟩
      · rcases h4 with h | h
        · exact Or.inl h
        · exact Or.inr (List.mem_cons_of_mem a h)
      · intro y hy hy0
        rcases List.mem_cons.mp hy with rfl | hm
        · exact absurd hy0 (not_le.mpr ha)
        · exact h5 y hm hy0
    · push_neg at ha
      by_cases hab : a.t < b.t
      · rw [hitStep_replace b a ha hab]
        obtain ⟨x, h1, h2, h3, h4, h5⟩ := ih a ha
        refine ⟨x, h1, h2, le_trans h3 (le_of_lt hab), ?_, ?_⟩
        · rcases h4 with rfl | h
          · exact Or.inr (List.mem_cons_self _ _)
          · exact Or.inr (List.mem_cons_of_mem _ h)
        · intro y hy hy0
          rcases List.mem_cons.mp hy with rfl | hm
          · exact h3
          · exact h5 y hm hy0
      · rw [hitStep_keep b a (not_lt.mp hab)]
        obtain ⟨x, h1, h2, h3, h4, h5⟩ := ih b hb
        refine ⟨x, h1, h2, h3, ?_, ?_⟩
        · rcases h4 with h | h
          · exact Or.inl h
          · exact Or.inr (List.mem_cons_of_mem a h)
        · intro y hy hy0
          rcases List.mem_cons.mp hy with rfl | hm
          · exact le_trans h3 (not_lt.mp hab)
          · exact h5 y hm hy0

/-- When some entry is non-negative, `hit` returns a member that is
non-negative and minimal among the non-negative entries. -/
theorem hit_some_spec (l : List Intersection) :
    (∃ x ∈ l, 0 ≤ x.t) →
    ∃ x, Intersections.hit l = some x ∧ x ∈ l ∧ 0 ≤ x.t ∧
      ∀ y ∈ l, 0 ≤ y.t → x.t ≤ y.t := by
  unfold Intersections.hit
  induction l with
  | nil => intro hex; simp at hex
  | cons a t ih =>
    intro hex
    rw [List.foldl_cons]
    by_cases ha : a.t < 0
    · rw [hitStep_neg none a ha]
      have hex' : ∃ x ∈ t, 0 ≤ x.t := by
        obtain ⟨x, hx, hx0⟩ := hex
        rcases List.mem_cons.mp hx with rfl | hm
        · exact absurd hx0 (not_le.mpr ha)
        · exact ⟨x, hm, hx0⟩
      obtain ⟨x, h1, h2, h3, h4⟩ := ih hex'
      refine ⟨x, h1, List.mem_cons_of_mem a h2, h3, ?_⟩
      intro y hy hy0
      rcases List.mem_cons.mp hy with rfl | hm
      · exact absurd hy0 (not_le.mpr ha)
      · exact h4 y hm hy0
    · push_neg at ha
      rw [hitStep_none a ha]
      obtain ⟨x, h1, h2, h3, h4, h5⟩ := hit_fold_min t a ha
      refine ⟨x, h1, ?_, h2, ?_⟩
      · rcases h4 with rfl | h
        · exact List.mem_cons_self _ _
        · exact List.mem_cons_of_mem _ h
      · intro y hy hy0
        rcases List.mem_cons.mp hy with rfl | hm
        · exact h3
        · exact h5 y hm hy0

/-- C3: `hit` returns an intersection with the smallest non-negative `t`
whenever one exists, and `none` when the sequence is empty or all `t` are
negative; in particular `{-1, 1} ↦ t = 1`, `{5, 7, -3, 2} ↦ t = 2`,
`{-1, -2} ↦ none`, `{} ↦ none`. -/
theorem hit_smallest_nonneg :
    (∀ l : List Intersection, (∃ x ∈ l, 0 ≤ x.t) →
      ∃ x, Intersections.hit l = some x ∧ x ∈ l ∧ 0 ≤ x.t ∧
        ∀ y ∈ l, 0 ≤ y.t → x.t ≤ y.t) ∧
    (∀ l : List Intersection, (∀ x ∈ l, x.t < 0) →
      Intersections.hit l = none) ∧
    Intersections.hit [⟨-1, Sphere.new⟩, ⟨1, Sphere.new⟩] =
      some ⟨1, Sphere.new⟩ ∧
    Intersections.hit [⟨5, Sphere.new⟩, ⟨7, Sphere.new⟩, ⟨-3, Sphere.new⟩,
      ⟨2, Sphere.new⟩] = some ⟨2, Sphere.new⟩ ∧
    Intersections.hit [⟨-1, Sphere.new⟩, ⟨-2, Sphere.new⟩] = none ∧
    Intersections.hit [] = none := by
  refine ⟨hit_some_spec, fun l h => hit_fold_all_neg l none h, ?_, ?_, ?_, rfl⟩
  all_goals
    norm_num [Intersections.hit, Intersections.hitStep, List.foldl]

/-- Witness for C3: the smallest-non-negative selection evaluated on the
concrete list with `t` values `[3, 1]`. -/
theorem hit_smallest_nonneg_witness :
    ∃ x, Intersections.hit [⟨3, Sphere.new⟩, ⟨1, Sphere.new⟩] = some x ∧
      x ∈ [Intersection.mk 3 Sphere.new, Intersection.mk 1 Sphere.new] ∧
      0 ≤ x.t ∧
      ∀ y ∈ [Intersection.mk 3 Sphere.new, Intersection.mk 1 Sphere.new],
        0 ≤ y.t → x.t ≤ y.t :=
  hit_smallest_nonneg.1 [⟨3, Sphere.new⟩, ⟨1, Sphere.new⟩]
    ⟨⟨3, Sphere.new⟩, by norm_num⟩

/-- Folding a list whose non-negative entries all have `t` at least the
accumulator's keeps the accumulator. -/
theorem hit_fold_keep (l : List Intersection) (a : Intersection)
    (h : ∀ y ∈ l, 0 ≤ y.t → a.t ≤ y.t) :
    l.foldl Intersections.hitStep (some a) = some a := by
  induction l with
  | nil => rfl
  | cons y t ih =>
    rw [List.foldl_cons]
    by_cases hy : y.t < 0
    · rw [hitStep_neg (some a) y hy]
      exact ih fun z hz => h z (List.mem_cons_of_mem y hz)
    · rw [hitStep_keep a y (h y (List.mem_cons_self y t) (not_lt.mp hy))]
      exact ih fun z hz => h z (List.mem_cons_of_mem y hz)

/-- Folding a list whose entries are all negative or strictly above `c`
keeps the accumulator `none`-or-above-`c`. -/
theorem hit_fold_above (l : List Intersection) (c : ℚ)
    (hl : ∀ y ∈ l, y.t < 0 ∨ c < y.t) :
    ∀ acc : Option Intersection,
      (acc = none ∨ ∃ b, acc = some b ∧ c < b.t) →
      (l.foldl Intersections.hitStep acc = none ∨
        ∃ b, l.foldl Intersections.hitStep acc = some b ∧ c < b.t) := by
  induction l with
  | nil => intro acc hacc; simpa using hacc
  | cons y t ih =>
    intro acc hacc
    rw [List.foldl_cons]
    refine ih (fun z hz => hl z (List.mem_cons_of_mem y hz)) _ ?_
    by_cases hy0 : y.t < 0
    · rw [hitStep_neg acc y hy0]; exact hacc
    · have hy : c < y.t :=
        (hl y (List.mem_cons_self y t)).resolve_left hy0
      rcases hacc with rfl | ⟨b, rfl, hb⟩
      · exact Or.inr ⟨y, hitStep_none y (not_lt.mp hy0), hy⟩
      · by_cases hyb : y.t < b.t
        · exact Or.inr ⟨y, hitStep_replace b y (not_lt.mp hy0) hyb, hy⟩
        · exact Or.inr ⟨b, hitStep_keep b y (not_lt.mp hyb), hb⟩

/-- C10: when several intersections share the smallest non-negative `t`,
`hit` returns the earliest of them in sequence order: if every entry
before `a` is negative or strictly larger, and every non-negative entry
after `a` is at least `a.t` (ties allowed), the fold's
strictly-smaller-only replacement keeps `a`. -/
theorem hit_earliest_on_ties (l1 l2 : List Intersection) (a : Intersection)
    (ha : 0 ≤ a.t) (h1 : ∀ y ∈ l1, y.t < 0 ∨ a.t < y.t)
    (h2 : ∀ y ∈ l2, 0 ≤ y.t → a.t ≤ y.t) :
    Intersections.hit (l1 ++ a :: l2) = some a := by
  unfold Intersections.hit
  rw [List.foldl_append, List.foldl_cons]
  rcases hit_fold_above l1 a.t h1 none (Or.inl rfl) with h | ⟨b, hb, hbt⟩
  · rw [h, hitStep_none a ha]
    exact hit_fold_keep l2 a h2
  · rw [hb, hitStep_replace b a ha hbt]
    exact hit_fold_keep l2 a h2

/-- Witness for C10: two intersections tie at the minimal non-negative
`t = 2` but carry distinguishable spheres; `hit` returns the earlier one. -/
theorem hit_earliest_on_ties_witness :
    Intersections.hit
        ([⟨5, Sphere.new⟩] ++ ⟨2, Sphere.new⟩ ::
          [⟨2, Sphere.mk ⟨9, 0, 0, 1⟩ 1 Mat.identity Material.new⟩,
           ⟨7, Sphere.new⟩]) = some ⟨2, Sphere.new⟩ :=
  hit_earliest_on_ties [⟨5, Sphere.new⟩]
    [⟨2, Sphere.mk ⟨9, 0, 0, 1⟩ 1 Mat.identity Material.new⟩,
     ⟨7, Sphere.new⟩]
    ⟨2, Sphere.new⟩ (by norm_num)
    (by intro y hy; rw [List.mem_singleton] at hy; subst hy; norm_num)
    (by
      intro y hy hy0
      rcases List.mem_cons.mp hy with rfl | hm
      · norm_num
      · rw [List.mem_singleton] at hm; subst hm; norm_num)

/-- Concrete stand-in for `f64::sqrt` in closed evaluations, correct at
the radicands those evaluations consult (`4` and `100`). -/
def sqrtC : ℚ → ℚ := fun q => if q = 4 then 2 else if q = 100 then 10 else 0

/-- Concrete stand-in for `f64::powf` in closed evaluations that never
reach the specular branch. -/
def powfC : ℚ → ℚ → ℚ := fun _ _ => 0

/-- C8: when the normalized light direction makes a negative dot product
with the normal (light behind the surface), `lighting` returns exactly the
ambient term `effective_color * ambient` with diffuse and specular black;
concretely, with eye and normal `(0,0,-1)`, default material, position at
the origin and a white light at `(0,0,10)`, the result is
`(0.1, 0.1, 0.1)`. -/
theorem lighting_far_side :
    (∀ (sqrt : ℚ → ℚ) (powf : ℚ → ℚ → ℚ) (m : Material)
      (light : PointLight) (position eyev normalv : Tuple),
      Tuple.dot_product
          (Tuple.normalize sqrt (Tuple.sub light.position position))
          normalv < 0 →
      Material.lighting sqrt powf m light position eyev normalv =
        Tuple.smul (Tuple.hadamard_product m.color light.intensity)
          m.ambient) ∧
    Material.lighting sqrtC powfC Material.new
        ⟨⟨1, 1, 1, 0⟩, ⟨0, 0, 10, 1⟩⟩ ⟨0, 0, 0, 1⟩ ⟨0, 0, -1, 0⟩
        ⟨0, 0, -1, 0⟩ =
      ⟨1 / 10, 1 / 10, 1 / 10, 0⟩ := by
  constructor
  · intro sqrt powf m light position eyev normalv h
    unfold Material.lighting
    simp only []
    rw [if_pos h]
    simp [Tuple.add, Tuple.smul, Tuple.hadamard_product]
  · norm_num [Material.lighting, Material.new, Tuple.normalize, Tuple.sub,
      Tuple.sdiv, Tuple.dot_product, Tuple.smul, Tuple.add,
      Tuple.hadamard_product, sqrtC, powfC]

/-- Witness for C8: the far-side hypothesis and the ambient-only
conclusion evaluated at the concrete light-behind-surface scene. -/
theorem lighting_far_side_witness :
    Tuple.dot_product
        (Tuple.normalize sqrtC
          (Tuple.sub (Tuple.mk 0 0 10 1) ⟨0, 0, 0, 1⟩)) ⟨0, 0, -1, 0⟩ < 0 ∧
    Material.lighting sqrtC powfC Material.new
        ⟨⟨1, 1, 1, 0⟩, ⟨0, 0, 10, 1⟩⟩ ⟨0, 0, 0, 1⟩ ⟨0, 0, -1, 0⟩
        ⟨0, 0, -1, 0⟩ =
      Tuple.smul
        (Tuple.hadamard_product Material.new.color ⟨1, 1, 1, 0⟩)
        Material.new.ambient :=
  ⟨by norm_num [Tuple.normalize, Tuple.sub, Tuple.sdiv, Tuple.dot_product,
      sqrtC],
   lighting_far_side.1 sqrtC powfC Material.new ⟨⟨1, 1, 1, 0⟩, ⟨0, 0, 10, 1⟩⟩
     ⟨0, 0, 0, 1⟩ ⟨0, 0, -1, 0⟩ ⟨0, 0, -1, 0⟩
     (by norm_num [Tuple.normalize, Tuple.sub, Tuple.sdiv,
       Tuple.dot_product, sqrtC])⟩

/-- C4: for every ray and sphere whose transform is invertible (and a
genuinely directed ray, `a > 0`, with `sqrt` returning a non-negative
root), `intersect` returns the empty sequence when the discriminant is
negative, a single intersection when `|t1 - t2| < EPSILON`, and otherwise
exactly the two roots in ascending order. -/
theorem intersect_root_cases (sqrt : ℚ → ℚ) (s : Sphere) (r : Ray)
    (inv : Mat 4) (hinv : Mat.inverse4 s.transform = some inv)
    (ha : 0 < quadA (r.transformBy inv))
    (hs : 0 ≤ sqrt (quadDisc s (r.transformBy inv))) :
    (quadDisc s (r.transformBy inv) < 0 →
      Sphere.intersect sqrt s r = some []) ∧
    (0 ≤ quadDisc s (r.transformBy inv) →
      |root1 sqrt s (r.transformBy inv) -
          root2 sqrt s (r.transformBy inv)| < EPSILON →
      Sphere.intersect sqrt s r =
        some [⟨root1 sqrt s (r.transformBy inv), s⟩]) ∧
    (0 ≤ quadDisc s (r.transformBy inv) →
      ¬(|root1 sqrt s (r.transformBy inv) -
          root2 sqrt s (r.transformBy inv)| < EPSILON) →
      Sphere.intersect sqrt s r =
        some [⟨root1 sqrt s (r.transformBy inv), s⟩,
              ⟨root2 sqrt s (r.transformBy inv), s⟩] ∧
      root1 sqrt s (r.transformBy inv) ≤
        root2 sqrt s (r.transformBy inv)) := by
  have hbody : Sphere.intersect sqrt s r =
      some (Sphere.intersectBody sqrt s (r.transformBy inv)) := by
    unfold Sphere.intersect
    rw [hinv]
    rfl
  have hle : root1 sqrt s (r.transformBy inv) ≤
      root2 sqrt s (r.transformBy inv) := by
    unfold root1 root2
    have h2a : (0 : ℚ) < 2 * quadA (r.transformBy inv) := by linarith
    exact (div_le_div_iff_of_pos_right h2a).mpr (by linarith)
  refine ⟨?_, ?_, ?_⟩
  · intro hd
    rw [hbody]
    unfold Sphere.intersectBody
    rw [if_pos hd]
  · intro hd hsm
    rw [hbody]
    unfold Sphere.intersectBody
    rw [if_neg (not_lt.mpr hd), if_pos hsm]
  · intro hd hsm
    rw [hbody]
    unfold Sphere.intersectBody
    rw [if_neg (not_lt.mpr hd), if_neg hsm]
    have hne : root1 sqrt s (r.transformBy inv) -
        root2 sqrt s (r.transformBy inv) ≠ 0 := by
      intro h0
      apply hsm
      rw [h0]
      norm_num [EPSILON]
    rw [if_pos (lt_of_le_of_ne (sub_nonpos.mpr hle) hne)]
    exact ⟨rfl, hle⟩

/-- The concrete matrix `inverse()` returns for the identity transform;
used by the C4 witness. -/
def invC : Mat 4 := fun col row =>
  Mat.cofactor4 Mat.identity row col / Mat.determinant4 Mat.identity

/-- Witness for C4: the two-root case for the untransformed unit sphere
and the ray from `(0, 0, -5)` along `+z` (roots `4` and `6`). -/
theorem intersect_root_cases_witness :
    Sphere.intersect sqrtC Sphere.new ⟨⟨0, 0, -5, 1⟩, ⟨0, 0, 1, 0⟩⟩ =
      some [⟨root1 sqrtC Sphere.new
               (Ray.transformBy ⟨⟨0, 0, -5, 1⟩, ⟨0, 0, 1, 0⟩⟩ invC),
             Sphere.new⟩,
            ⟨root2 sqrtC Sphere.new
               (Ray.transformBy ⟨⟨0, 0, -5, 1⟩, ⟨0, 0, 1, 0⟩⟩ invC),
             Sphere.new⟩] ∧
    root1 sqrtC Sphere.new
        (Ray.transformBy ⟨⟨0, 0, -5, 1⟩, ⟨0, 0, 1, 0⟩⟩ invC) ≤
      root2 sqrtC Sphere.new
        (Ray.transformBy ⟨⟨0, 0, -5, 1⟩, ⟨0, 0, 1, 0⟩⟩ invC) :=
  (intersect_root_cases sqrtC Sphere.new ⟨⟨0, 0, -5, 1⟩, ⟨0, 0, 1, 0⟩⟩ invC
    (by
      rw [show Sphere.new.transform = Mat.identity from rfl]
      exact inverse4_eq Mat.identity (by rw [det_id4]; exact one_ne_zero))
    (by
      norm_num [quadA, Ray.transformBy, Mat.mulTuple, invC, det4e, cof4e00,
        cof4e01, cof4e02, cof4e03, cof4e10, cof4e11, cof4e12, cof4e13,
        cof4e20, cof4e21, cof4e22, cof4e23, cof4e30, cof4e31, cof4e32,
        cof4e33, id4e00, id4e01, id4e02, id4e03, id4e10, id4e11, id4e12,
        id4e13, id4e20, id4e21, id4e22, id4e23, id4e30, id4e31, id4e32,
        id4e33, Tuple.dot_product])
    (by
      norm_num [quadDisc, quadA, quadB, quadC, sphere_to_ray, Sphere.new,
        Ray.transformBy, Mat.mulTuple, invC, det4e, cof4e00, cof4e01,
        cof4e02, cof4e03, cof4e10, cof4e11, cof4e12, cof4e13, cof4e20,
        cof4e21, cof4e22, cof4e23, cof4e30, cof4e31, cof4e32, cof4e33,
        id4e00, id4e01, id4e02, id4e03, id4e10, id4e11, id4e12, id4e13,
        id4e20, id4e21, id4e22, id4e23, id4e30, id4e31, id4e32, id4e33,
        Tuple.dot_product, Tuple.sub, sqrtC])).2.2
    (by
      norm_num [quadDisc, quadA, quadB, quadC, sphere_to_ray, Sphere.new,
        Ray.transformBy, Mat.mulTuple, invC, det4e, cof4e00, cof4e01,
        cof4e02, cof4e03, cof4e10, cof4e11, cof4e12, cof4e13, cof4e20,
        cof4e21, cof4e22, cof4e23, cof4e30, cof4e31, cof4e32, cof4e33,
        id4e00, id4e01, id4e02, id4e03, id4e10, id4e11, id4e12, id4e13,
        id4e20, id4e21, id4e22, id4e23, id4e30, id4e31, id4e32, id4e33,
        Tuple.dot_product, Tuple.sub])
    (by
      norm_num [root1, root2, quadDisc, quadA, quadB, quadC, sphere_to_ray,
        Sphere.new, Ray.transformBy, Mat.mulTuple, invC, det4e, cof4e00,
        cof4e01, cof4e02, cof4e03, cof4e10, cof4e11, cof4e12, cof4e13,
        cof4e20, cof4e21, cof4e22, cof4e23, cof4e30, cof4e31, cof4e32,
        cof4e33, id4e00, id4e01, id4e02, id4e03, id4e10, id4e11, id4e12,
        id4e13, id4e20, id4e21, id4e22, id4e23, id4e30, id4e31, id4e32,
        id4e33, Tuple.dot_product, Tuple.sub, sqrtC, EPSILON])
